import Mathlib

/-!
Verification development for the Nazara Engine forward-rendering fragment:
the forward render queue (`ForwardRenderQueue.cpp`) and the light scene node
(`Light.cpp`).  The C++ code is shallowly embedded: floats become rationals,
pointers become numeric identities, containers become lists, and the math
primitives that the code consumes as external services (vectors, planes,
boxes, bounding volumes, frustums) are modelled from the spec's contract for
them.  Trigonometric functions are irrational on rationals, so they enter as
an explicit oracle parameter.
-/

/-! ## Math primitives (external services, modelled from the spec) -/

/-- Modelled from the spec: 3-component float vector (`NzVector3f`),
components as rationals. -/
structure NzVector3f where
  x : ℚ
  y : ℚ
  z : ℚ
deriving DecidableEq, Inhabited

def NzVector3f.add (u v : NzVector3f) : NzVector3f := ⟨u.x + v.x, u.y + v.y, u.z + v.z⟩

def NzVector3f.sub (u v : NzVector3f) : NzVector3f := ⟨u.x - v.x, u.y - v.y, u.z - v.z⟩

def NzVector3f.scale (v : NzVector3f) (c : ℚ) : NzVector3f := ⟨v.x * c, v.y * c, v.z * c⟩

def NzVector3f.dot (u v : NzVector3f) : ℚ := u.x * v.x + u.y * v.y + u.z * v.z

def NzVector3f.cross (u v : NzVector3f) : NzVector3f :=
  ⟨u.y * v.z - u.z * v.y, u.z * v.x - u.x * v.z, u.x * v.y - u.y * v.x⟩

/-- Modelled from the spec: `NzVector3f::Zero()`. -/
def NzVector3f.Zero : NzVector3f := ⟨0, 0, 0⟩

/-- Modelled from the spec: `NzVector3f::Forward()`, the local forward axis. -/
def NzVector3f.Forward : NzVector3f := ⟨0, 0, 1⟩

/-- Modelled from the spec: `NzVector3f::Left()`, the local left axis. -/
def NzVector3f.Left : NzVector3f := ⟨-1, 0, 0⟩

/-- Modelled from the spec: `NzVector3f::Up()`, the local up axis. -/
def NzVector3f.Up : NzVector3f := ⟨0, 1, 0⟩

/-- Modelled from the spec: 4-component float vector (`NzVector4f`). -/
structure NzVector4f where
  x : ℚ
  y : ℚ
  z : ℚ
  w : ℚ
deriving DecidableEq, Inhabited

/-- Modelled from the spec: the `NzVector4f(NzVector3f)` constructor, which
fills `w` with 1. -/
def NzVector4f.ofVec3 (v : NzVector3f) : NzVector4f := ⟨v.x, v.y, v.z, 1⟩

/-- Modelled from the spec: quaternion (`NzQuaternionf`). -/
structure NzQuaternionf where
  w : ℚ
  x : ℚ
  y : ℚ
  z : ℚ
deriving DecidableEq, Inhabited

/-- Modelled from the spec: the identity quaternion. -/
def NzQuaternionf.Identity : NzQuaternionf := ⟨1, 0, 0, 0⟩

/-- Modelled from the spec: quaternion rotation of a vector
(`NzQuaternionf::operator*(NzVector3f)`), by the standard formula
v + 2 w (q × v) + 2 (q × (q × v)). -/
def NzQuaternionf.rotate (q : NzQuaternionf) (v : NzVector3f) : NzVector3f :=
  let qv : NzVector3f := ⟨q.x, q.y, q.z⟩
  let t := (qv.cross v).scale 2
  (v.add (t.scale q.w)).add (qv.cross t)

/-- Modelled from the spec: an 8-bit RGBA color (`NzColor`); the channel
values are opaque payload for this development. -/
structure NzColor where
  r : ℕ
  g : ℕ
  b : ℕ
  a : ℕ
deriving DecidableEq, Inhabited

/-- Modelled from the spec: `NzColor::White`. -/
def NzColor.White : NzColor := ⟨255, 255, 255, 255⟩

/-- Modelled from the spec: a 4x4 transform matrix (`NzMatrix4f`) restricted
to the data this code observes and constructs, namely a translation and a
rotation part.  `Translate` produces an identity rotation, `Transform`
carries both. -/
structure NzMatrix4f where
  translation : NzVector3f
  rotation : NzQuaternionf
deriving DecidableEq, Inhabited

/-- Modelled from the spec: `NzMatrix4f::Translate(v)`. -/
def NzMatrix4f.Translate (v : NzVector3f) : NzMatrix4f := ⟨v, NzQuaternionf.Identity⟩

/-- Modelled from the spec: `NzMatrix4f::Transform(position, rotation)`. -/
def NzMatrix4f.Transform (position : NzVector3f) (rotation : NzQuaternionf) : NzMatrix4f :=
  ⟨position, rotation⟩

def NzMatrix4f.GetTranslation (m : NzMatrix4f) : NzVector3f := m.translation

/-- Modelled from the spec: a plane (`NzPlanef`) given by its normal and
signed offset. -/
structure NzPlanef where
  normal : NzVector3f
  d : ℚ
deriving DecidableEq, Inhabited

/-- Modelled from the spec: `NzPlanef::Distance(point)`, the signed distance
from a point to the plane. -/
def NzPlanef.Distance (p : NzPlanef) (v : NzVector3f) : ℚ :=
  p.normal.dot v + p.d

/-- Modelled from the spec: an axis-aligned box (`NzBoxf`) as min/max
corners; the one-point constructor produces a degenerate box. -/
structure NzBoxf where
  lo : NzVector3f
  hi : NzVector3f
deriving DecidableEq, Inhabited

/-- Modelled from the spec: the `NzBoxf(NzVector3f)` degenerate-box
constructor. -/
def NzBoxf.ofPoint (v : NzVector3f) : NzBoxf := ⟨v, v⟩

/-- Modelled from the spec: `NzBoxf::ExtendTo(point)` grows the box to
contain the point. -/
def NzBoxf.ExtendTo (b : NzBoxf) (v : NzVector3f) : NzBoxf :=
  ⟨⟨min b.lo.x v.x, min b.lo.y v.y, min b.lo.z v.z⟩,
   ⟨max b.hi.x v.x, max b.hi.y v.y, max b.hi.z v.z⟩⟩

/-- Modelled from the spec: a sphere (`NzSpheref`). -/
structure NzSpheref where
  center : NzVector3f
  radius : ℚ
deriving DecidableEq, Inhabited

/-- Modelled from the spec: `NzBoundingVolumef`, a tagged volume that is
null, infinite, or a finite local-space box together with the world
placement last applied to it.  Per the spec, `Update` reapplies the world
placement to the cached local shape, so it records the transform rather
than composing it. -/
inductive NzBoundingVolumef where
  | null
  | infinite
  | finite (localBox : NzBoxf) (placement : Option NzMatrix4f)
deriving DecidableEq, Inhabited

/-- Modelled from the spec: `NzBoundingVolumef::IsNull()`. -/
def NzBoundingVolumef.IsNull : NzBoundingVolumef → Bool
  | .null => true
  | _ => false

/-- Modelled from the spec: `NzBoundingVolumef::Set(min, max)` makes a
finite volume from two corners, with no world placement yet. -/
def NzBoundingVolumef.SetCorners (vmin vmax : NzVector3f) : NzBoundingVolumef :=
  .finite ⟨vmin, vmax⟩ none

/-- Modelled from the spec: `NzBoundingVolumef::Set(box)`. -/
def NzBoundingVolumef.SetBox (box : NzBoxf) : NzBoundingVolumef :=
  .finite box none

/-- Modelled from the spec: `NzBoundingVolumef::Update(matrix)` recomputes
the world placement of the cached local shape from the given matrix. -/
def NzBoundingVolumef.Update (v : NzBoundingVolumef) (m : NzMatrix4f) : NzBoundingVolumef :=
  match v with
  | .finite box _ => .finite box (some m)
  | x => x

/-- Modelled from the spec: the geometric culling oracle (`NzFrustumf`),
consumed as an opaque contained/not-contained service. -/
structure NzFrustumf where
  containsSphere : NzSpheref → Bool
  containsVolume : NzBoundingVolumef → Bool

/-- Modelled from the spec: the camera, reduced to what `Sort` reads from
it, `camera.GetFrustum().GetPlane(nzFrustumPlane_Near)`. -/
structure NzCamera where
  nearPlane : NzPlanef

/-- The irrational trigonometric externals (`std::tan`, `std::cos`, composed
with `NzDegreeToRadian`), supplied as an oracle so that the embedding stays
on rationals.  `tanDeg a` stands for tan(a * pi / 180), `cosDeg a` for
cos(a * pi / 180). -/
structure MathOracle where
  tanDeg : ℚ → ℚ
  cosDeg : ℚ → ℚ

/-! ## Light (`Light.cpp`) -/

/-- `nzLightType` is a C++ enum, so it is carried as a natural number:
Directional = 0, Point = 1, Spot = 2 (`Enums.hpp`); other values are
representable, as in C++. -/
def nzLightType : Type := ℕ
deriving DecidableEq

def nzLightType_Directional : nzLightType := (0 : ℕ)
def nzLightType_Point : nzLightType := (1 : ℕ)
def nzLightType_Spot : nzLightType := (2 : ℕ)

/-- The state of an `NzLight`, including the scene-node derived-transform
cache it inherits (`m_derivedPosition`, `m_derivedRotation`,
`m_derivedUpdated`). -/
structure NzLight where
  type : ℕ
  color : NzColor
  boundingVolume : NzBoundingVolumef
  boundingVolumeUpdated : Bool
  ambientFactor : ℚ
  attenuation : ℚ
  diffuseFactor : ℚ
  innerAngle : ℚ
  outerAngle : ℚ
  radius : ℚ
  derivedPosition : NzVector3f
  derivedRotation : NzQuaternionf
  derivedUpdated : Bool
deriving DecidableEq, Inhabited

/-- The `NzLight(nzLightType)` constructor.  The derived fields come from
the scene-node base: origin position, identity rotation, stale cache. -/
def NzLight.mk' (type : ℕ) : NzLight where
  type := type
  color := NzColor.White
  boundingVolume := .null
  boundingVolumeUpdated := false
  ambientFactor := if type = nzLightType_Directional then 1/5 else 0
  attenuation := 9/10
  diffuseFactor := 1
  innerAngle := 15
  outerAngle := 45
  radius := 5
  derivedPosition := NzVector3f.Zero
  derivedRotation := NzQuaternionf.Identity
  derivedUpdated := false

/-- Modelled from the spec: `NzSceneNode::UpdateDerived` refreshes the
cached world transform.  The `derivedPosition`/`derivedRotation` fields of
this embedding hold the up-to-date values, so refreshing only sets the
flag. -/
def NzLight.UpdateDerived (s : NzLight) : NzLight :=
  { s with derivedUpdated := true }

def NzLight.SetAmbientFactor (s : NzLight) (factor : ℚ) : NzLight :=
  { s with ambientFactor := factor }

def NzLight.SetAttenuation (s : NzLight) (attenuation : ℚ) : NzLight :=
  { s with attenuation := attenuation }

def NzLight.SetColor (s : NzLight) (color : NzColor) : NzLight :=
  { s with color := color }

def NzLight.SetDiffuseFactor (s : NzLight) (factor : ℚ) : NzLight :=
  { s with diffuseFactor := factor }

def NzLight.SetInnerAngle (s : NzLight) (innerAngle : ℚ) : NzLight :=
  { s with innerAngle := innerAngle }

def NzLight.SetLightType (s : NzLight) (type : ℕ) : NzLight :=
  { s with type := type }

def NzLight.SetOuterAngle (s : NzLight) (outerAngle : ℚ) : NzLight :=
  { s with outerAngle := outerAngle, boundingVolume := .null, boundingVolumeUpdated := false }

def NzLight.SetRadius (s : NzLight) (radius : ℚ) : NzLight :=
  { s with radius := radius, boundingVolume := .null, boundingVolumeUpdated := false }

def NzLight.Invalidate (s : NzLight) : NzLight :=
  { s with derivedUpdated := false, boundingVolumeUpdated := false }

/-- The local-space box built for a spot light inside
`NzLight::UpdateBoundingVolume`: a degenerate box at the apex extended to
the four far-plane corners. -/
def spotLocalBox (o : MathOracle) (lightRadius outerAngle : ℚ) : NzBoxf :=
  let box := NzBoxf.ofPoint NzVector3f.Zero
  let base := NzVector3f.Forward.scale lightRadius
  let radius := lightRadius * o.tanDeg outerAngle
  let lExtend := NzVector3f.Left.scale radius
  let uExtend := NzVector3f.Up.scale radius
  ((((box.ExtendTo ((base.add lExtend).add uExtend)).ExtendTo
      ((base.add lExtend).sub uExtend)).ExtendTo
      ((base.sub lExtend).add uExtend)).ExtendTo
      ((base.sub lExtend).sub uExtend))

/-- `NzLight::UpdateBoundingVolume`.  The directional-and-null case mirrors
the early `return` of the source; the local shape is recomputed only when
the volume is null, and the world placement is then (re)applied per type. -/
def NzLight.UpdateBoundingVolume (o : MathOracle) (s : NzLight) : NzLight :=
  if s.boundingVolume.IsNull = true ∧ s.type = nzLightType_Directional then
    { s with boundingVolume := .infinite, boundingVolumeUpdated := true }
  else
    let s₁ :=
      if s.boundingVolume.IsNull = true then
        match s.type with
        | 1 =>
          let radius : NzVector3f := ⟨s.radius, s.radius, s.radius⟩
          { s with boundingVolume :=
              NzBoundingVolumef.SetCorners ⟨-s.radius, -s.radius, -s.radius⟩ radius }
        | 2 =>
          { s with boundingVolume :=
              NzBoundingVolumef.SetBox (spotLocalBox o s.radius s.outerAngle) }
        | _ => s
      else s
    let s₂ :=
      match s₁.type with
      | 1 =>
        let s' := if s₁.derivedUpdated then s₁ else s₁.UpdateDerived
        { s' with boundingVolume :=
            s'.boundingVolume.Update (NzMatrix4f.Translate s'.derivedPosition) }
      | 2 =>
        let s' := if s₁.derivedUpdated then s₁ else s₁.UpdateDerived
        { s' with boundingVolume :=
            s'.boundingVolume.Update (NzMatrix4f.Transform s'.derivedPosition s'.derivedRotation) }
      | _ => s₁
    { s₂ with boundingVolumeUpdated := true }

/-- `NzLight::GetBoundingVolume`: lazily recomputes, returning the volume
and the (possibly cache-refreshed) light. -/
def NzLight.GetBoundingVolume (o : MathOracle) (s : NzLight) : NzBoundingVolumef × NzLight :=
  if s.boundingVolumeUpdated then (s.boundingVolume, s)
  else
    let s' := s.UpdateBoundingVolume o
    (s'.boundingVolume, s')

/-- `NzLight::FrustumCull`: visibility verdict, updated light state, and
emitted error messages. -/
def NzLight.FrustumCull (o : MathOracle) (frustum : NzFrustumf) (s : NzLight) :
    Bool × NzLight × List String :=
  match s.type with
  | 0 => (true, s, [])
  | 1 =>
    let s' := if s.derivedUpdated then s else s.UpdateDerived
    (frustum.containsSphere ⟨s'.derivedPosition, s'.radius⟩, s', [])
  | 2 =>
    let s' := if s.boundingVolumeUpdated then s else s.UpdateBoundingVolume o
    (frustum.containsVolume s'.boundingVolume, s', [])
  | _ => (false, s, ["Invalid light type"])

/-! ## Shader-uniform upload (`NzLight::Enable`) -/

/-- The values the light upload sends (`SendInteger`, `SendColor`,
`SendVector`). -/
inductive UniformValue where
  | int (i : ℤ)
  | color (c : NzColor)
  | vec2 (x y : ℚ)
  | vec4 (v : NzVector4f)
deriving DecidableEq

/-- Modelled from the spec: the shader program, reduced to its string-based
uniform-location lookup. -/
structure NzShaderProgram where
  getUniformLocation : String → ℤ

/-- The slot-stride offset `Enable` derives by probing two consecutive
slots, applied only when `lightUnit > 0` as in the source. -/
def enableOffset (program : NzShaderProgram) (lightUnit : ℕ) : ℤ :=
  if lightUnit > 0 then
    (lightUnit : ℤ) *
      (program.getUniformLocation "Lights[1].type" - program.getUniformLocation "Lights[0].type")
  else 0

/-- The location `Enable` targets for one field of the given light unit. -/
def enableLocation (program : NzShaderProgram) (lightUnit : ℕ) (field : String) : ℤ :=
  program.getUniformLocation ("Lights[0]." ++ field) + enableOffset program lightUnit

/-- `NzLight::Enable`: the sequence of uniform writes it performs, plus the
light state after its lazy derived-transform refresh. -/
def NzLight.Enable (o : MathOracle) (s : NzLight) (program : NzShaderProgram)
    (lightUnit : ℕ) : List (ℤ × UniformValue) × NzLight :=
  let typeLocation := enableLocation program lightUnit "type"
  let colorLocation := enableLocation program lightUnit "color"
  let factorsLocation := enableLocation program lightUnit "factors"
  let parameters1Location := enableLocation program lightUnit "parameters1"
  let parameters2Location := enableLocation program lightUnit "parameters2"
  let parameters3Location := enableLocation program lightUnit "parameters3"
  let baseSends : List (ℤ × UniformValue) :=
    [(typeLocation, .int (s.type : ℤ)),
     (colorLocation, .color s.color),
     (factorsLocation, .vec2 s.ambientFactor s.diffuseFactor)]
  let s' := if s.derivedUpdated then s else s.UpdateDerived
  let paramSends : List (ℤ × UniformValue) :=
    match s'.type with
    | 0 => [(parameters1Location, .vec4 (NzVector4f.ofVec3 (s'.derivedRotation.rotate NzVector3f.Forward)))]
    | 1 => [(parameters1Location, .vec4 ⟨s'.derivedPosition.x, s'.derivedPosition.y, s'.derivedPosition.z, s'.attenuation⟩),
            (parameters2Location, .vec4 ⟨0, 0, 0, 1 / s'.radius⟩)]
    | 2 => [(parameters1Location, .vec4 ⟨s'.derivedPosition.x, s'.derivedPosition.y, s'.derivedPosition.z, s'.attenuation⟩),
            (parameters2Location, .vec4 ⟨(s'.derivedRotation.rotate NzVector3f.Forward).x,
                                         (s'.derivedRotation.rotate NzVector3f.Forward).y,
                                         (s'.derivedRotation.rotate NzVector3f.Forward).z, 1 / s'.radius⟩),
            (parameters3Location, .vec2 (o.cosDeg s'.innerAngle) (o.cosDeg s'.outerAngle))]
    | _ => []
  (baseSends ++ paramSends, s')

/-- Replays a list of uniform writes onto a uniform store, later writes
overwriting earlier ones. -/
def applySends (sends : List (ℤ × UniformValue)) (store : ℤ → UniformValue) :
    ℤ → UniformValue :=
  sends.foldl (fun st p => Function.update st p.1 p.2) store

/-! ## Render-queue data model (`ForwardRenderQueue.cpp`) -/

/-- An `NzMaterial` as the queue observes it: custom-shader identity (a
pointer, `none` when only the default shader is used), the shader-feature
bitmask, the alpha-blending switch, and the stable identity used as the
pointer tie-break. -/
structure NzMaterial where
  customShader : Option ℕ
  shaderFlags : ℕ
  alphaBlendingEnabled : Bool
  id : ℕ
deriving DecidableEq, Inhabited

/-- An `NzStaticMesh` as the comparators observe it: index-buffer storage
identity (`GetIndexBuffer()` then `GetBuffer()`, `none` for a null index
buffer), vertex-buffer storage identity, and the mesh's own pointer
identity. -/
structure NzStaticMesh where
  indexBufferBuffer : Option ℕ
  vertexBufferBuffer : ℕ
  id : ℕ
deriving DecidableEq, Inhabited

/-- An `NzSkeletalMesh` as its comparator observes it. -/
structure NzSkeletalMesh where
  indexBufferBuffer : Option ℕ
  id : ℕ
deriving DecidableEq, Inhabited

/-- The null-buffer pointer: `GetBuffer()` of a missing index buffer is
`nullptr`, which compares as pointer value 0. -/
def bufferPtr (b : Option ℕ) : ℕ := b.getD 0

/-- `nzAnimationType`, as far as `AddModel` branches on it. -/
inductive nzAnimationType where
  | skeletal
  | static
deriving DecidableEq, Inhabited

/-- An `NzSubMesh` of a model's mesh: its animation kind, its material
index, and its `NzStaticMesh` payload (the target of the `static_cast` on
the static path). -/
structure NzSubMesh where
  animationType : nzAnimationType
  materialIndex : ℕ
  asStatic : NzStaticMesh
deriving Inhabited

/-- An `NzMesh` as `AddModel` traverses it. -/
structure NzMesh where
  subMeshes : List NzSubMesh
deriving Inhabited

/-- An `NzModel` as `AddModel` reads it: drawability, the world transform,
the mesh, and material resolution by index. -/
structure NzModel where
  isDrawable : Bool
  transformMatrix : NzMatrix4f
  mesh : NzMesh
  getMaterial : ℕ → NzMaterial

/-- `TransparentStaticModel`: the queue's owned copy of one transparent
static submission. -/
structure TransparentStaticModel where
  material : NzMaterial
  mesh : NzStaticMesh
  transformMatrix : NzMatrix4f
deriving DecidableEq, Inhabited

/-- `TransparentSkeletalModel`: the skeletal analogue (never populated by
this translation unit, the skeletal path being unimplemented). -/
structure TransparentSkeletalModel where
  material : NzMaterial
  mesh : NzSkeletalMesh
  transformMatrix : NzMatrix4f
deriving DecidableEq, Inhabited

/-- The forward render queue.  `visibleModels` is the
material-to-mesh-to-transforms grouping structure; per the spec's data
model it maps a Material key to a map from Mesh key to the ordered transform
list.  The `std::map`s are carried as association lists: key lookup is by
the comparators' equivalence (which below is proved to coincide with
identity equality), while the comparator-sorted iteration order of distinct
keys is not needed by any claim and is not modelled. -/
structure NzForwardRenderQueue where
  directionnalLights : List NzLight
  otherDrawables : List ℕ
  visibleLights : List NzLight
  visibleModels : List (NzMaterial × List (NzStaticMesh × List NzMatrix4f))
  visibleTransparentsModels : List (ℕ × Bool)
  transparentSkeletalModels : List TransparentSkeletalModel
  transparentStaticModels : List TransparentStaticModel
deriving DecidableEq, Inhabited

/-- The queue as constructed, with every container empty. -/
def emptyQueue : NzForwardRenderQueue := ⟨[], [], [], [], [], [], []⟩

/-- `NzForwardRenderQueue::Clear()`: empties every container. -/
def NzForwardRenderQueue.Clear (_ : NzForwardRenderQueue) : NzForwardRenderQueue :=
  { directionnalLights := []
    otherDrawables := []
    visibleLights := []
    visibleModels := []
    visibleTransparentsModels := []
    transparentSkeletalModels := []
    transparentStaticModels := [] }

/-- `NzForwardRenderQueue::AddDrawable` (drawables are opaque references,
carried as identities).  `NAZARA_GRAPHICS_SAFE` is 1 in this
configuration, so the null check is active. -/
def NzForwardRenderQueue.AddDrawable (drawable : Option ℕ)
    (q : NzForwardRenderQueue) : NzForwardRenderQueue × List String :=
  match drawable with
  | none => (q, ["Invalid drawable"])
  | some d => ({ q with otherDrawables := q.otherDrawables ++ [d] }, [])

/-- `NzForwardRenderQueue::AddLight`.  The unknown-type error is emitted
only under `NAZARA_DEBUG`, passed here as the `dbg` flag. -/
def NzForwardRenderQueue.AddLight (dbg : Bool) (light : Option NzLight)
    (q : NzForwardRenderQueue) : NzForwardRenderQueue × List String :=
  match light with
  | none => (q, ["Invalid light"])
  | some l =>
    match l.type with
    | 0 => ({ q with directionnalLights := q.directionnalLights ++ [l] }, [])
    | 1 => ({ q with visibleLights := q.visibleLights ++ [l] }, [])
    | 2 => ({ q with visibleLights := q.visibleLights ++ [l] }, [])
    | _ => (q, if dbg then ["Light type not handled"] else [])

/-- Inserts `f`'s update at key `k` of an association list, default `d` when
the key is absent; stands for `std::map::operator[]` followed by the
mutation `f`. -/
def updateAssoc {κ α : Type} [DecidableEq κ] (k : κ) (f : α → α) (d : α) :
    List (κ × α) → List (κ × α)
  | [] => [(k, f d)]
  | (k', v) :: rest =>
    if k = k' then (k', f v) :: rest else (k', v) :: updateAssoc k f d rest

/-- Key lookup in an association list. -/
def lookupAssoc {κ α : Type} [DecidableEq κ] (k : κ) : List (κ × α) → Option α
  | [] => none
  | (k', v) :: rest => if k = k' then some v else lookupAssoc k rest

/-- The body of `AddModel`'s per-submesh loop. -/
def addSubMeshStep (m : NzModel) (acc : NzForwardRenderQueue × List String)
    (subMesh : NzSubMesh) : NzForwardRenderQueue × List String :=
  let q := acc.1
  let log := acc.2
  let material := m.getMaterial subMesh.materialIndex
  match subMesh.animationType with
  | .skeletal => (q, log ++ ["Skeletal mesh not supported yet, sorry"])
  | .static =>
    let staticMesh := subMesh.asStatic
    if material.alphaBlendingEnabled then
      let index := q.transparentStaticModels.length
      ({ q with
          transparentStaticModels :=
            q.transparentStaticModels ++ [⟨material, staticMesh, m.transformMatrix⟩],
          visibleTransparentsModels := q.visibleTransparentsModels ++ [(index, true)] },
        log)
    else
      ({ q with
          visibleModels :=
            updateAssoc material
              (fun meshMap => updateAssoc staticMesh (fun ts => ts ++ [m.transformMatrix]) [] meshMap)
              [] q.visibleModels },
        log)

/-- `NzForwardRenderQueue::AddModel`. -/
def NzForwardRenderQueue.AddModel (model : Option NzModel)
    (q : NzForwardRenderQueue) : NzForwardRenderQueue × List String :=
  match model with
  | none => (q, ["Invalid model"])
  | some m =>
    if m.isDrawable = false then (q, ["Model is not drawable"])
    else m.mesh.subMeshes.foldl (addSubMeshStep m) (q, [])

/-! ## Mesh and material comparators (`ForwardRenderQueue.cpp`) -/

/-- `NzForwardRenderQueue::SkeletalMeshComparator::operator()`.  The source
reads `subMesh1->GetIndexBuffer()` for both operands and finishes the
unequal-buffer branch with `buffer2 < buffer2`; both are kept as written. -/
def SkeletalMeshComparator (subMesh1 subMesh2 : NzSkeletalMesh) : Bool :=
  let iBuffer1 := subMesh1.indexBufferBuffer
  let buffer1 := bufferPtr iBuffer1
  let iBuffer2 := subMesh1.indexBufferBuffer
  let buffer2 := bufferPtr iBuffer2
  if buffer1 = buffer2 then
    decide (subMesh1.id < subMesh2.id)
  else
    decide (buffer2 < buffer2)

/-- `NzForwardRenderQueue::StaticMeshComparator::operator()`.  The source
reads `subMesh1->GetIndexBuffer()` for both operands; kept as written. -/
def StaticMeshComparator (subMesh1 subMesh2 : NzStaticMesh) : Bool :=
  let iBuffer1 := subMesh1.indexBufferBuffer
  let buffer1 := bufferPtr iBuffer1
  let iBuffer2 := subMesh1.indexBufferBuffer
  let buffer2 := bufferPtr iBuffer2
  if buffer1 = buffer2 then
    let vBuffer1 := subMesh1.vertexBufferBuffer
    let vBuffer2 := subMesh2.vertexBufferBuffer
    if vBuffer1 = vBuffer2 then
      decide (subMesh1.id < subMesh2.id)
    else
      decide (vBuffer1 < vBuffer2)
  else
    decide (buffer1 < buffer2)

/-- Modelled from the spec: the intended static-mesh order — index-buffer
storage identity first, vertex-buffer storage identity second, stable mesh
identity last.  Stated for comparison with `StaticMeshComparator`. -/
def specStaticMeshOrder (subMesh1 subMesh2 : NzStaticMesh) : Bool :=
  let buffer1 := bufferPtr subMesh1.indexBufferBuffer
  let buffer2 := bufferPtr subMesh2.indexBufferBuffer
  if buffer1 = buffer2 then
    if subMesh1.vertexBufferBuffer = subMesh2.vertexBufferBuffer then
      decide (subMesh1.id < subMesh2.id)
    else
      decide (subMesh1.vertexBufferBuffer < subMesh2.vertexBufferBuffer)
  else
    decide (buffer1 < buffer2)

/-- Modelled from the spec: the intended skeletal-mesh order — index-buffer
storage identity first, stable mesh identity last.  Stated for comparison
with `SkeletalMeshComparator`. -/
def specSkeletalMeshOrder (subMesh1 subMesh2 : NzSkeletalMesh) : Bool :=
  let buffer1 := bufferPtr subMesh1.indexBufferBuffer
  let buffer2 := bufferPtr subMesh2.indexBufferBuffer
  if buffer1 = buffer2 then
    decide (subMesh1.id < subMesh2.id)
  else
    decide (buffer1 < buffer2)

/-- `NzForwardRenderQueue::MaterialComparator::operator()`. -/
def MaterialComparator (mat1 mat2 : NzMaterial) : Bool :=
  match mat1.customShader, mat2.customShader with
  | some shader1, some shader2 =>
    if shader1 ≠ shader2 then decide (shader1 < shader2)
    else decide (mat1.id < mat2.id)
  | some _, none => true
  | none, some _ => false
  | none, none =>
    if mat1.shaderFlags ≠ mat2.shaderFlags then
      decide (mat1.shaderFlags < mat2.shaderFlags)
    else decide (mat1.id < mat2.id)

/-- The lexicographic sort key realized by `MaterialComparator`:
shader-presence rank, shader identity, feature flags (only without a custom
shader), material identity. -/
def matKey (m : NzMaterial) : ℕ × ℕ × ℕ × ℕ :=
  match m.customShader with
  | some s => (0, s, 0, m.id)
  | none => (1, 0, m.shaderFlags, m.id)

/-- Strict lexicographic order on quadruples of naturals. -/
def lex4 (p q : ℕ × ℕ × ℕ × ℕ) : Prop :=
  p.1 < q.1 ∨ (p.1 = q.1 ∧ (p.2.1 < q.2.1 ∨ (p.2.1 = q.2.1 ∧
    (p.2.2.1 < q.2.2.1 ∨ (p.2.2.1 = q.2.2.1 ∧ p.2.2.2 < q.2.2.2)))))

theorem materialComparator_iff_lex (mat1 mat2 : NzMaterial) :
    MaterialComparator mat1 mat2 = true ↔ lex4 (matKey mat1) (matKey mat2) := by
  rcases h1 : mat1.customShader with _ | s1 <;> rcases h2 : mat2.customShader with _ | s2 <;>
    simp [MaterialComparator, matKey, lex4, h1, h2] <;>
    split_ifs <;> simp_all

/-! ## Transparent sort (`NzForwardRenderQueue::Sort`) -/

/-- The matrix the sort comparator dereferences for a record `(index,
isStatic)` when it follows the record's own tag. -/
def transparentRecordMatrix (queue : NzForwardRenderQueue) (p : ℕ × Bool) : NzMatrix4f :=
  if p.2 then (queue.transparentStaticModels.getD p.1 default).transformMatrix
  else (queue.transparentSkeletalModels.getD p.1 default).transformMatrix

/-- The near-plane distance of one transparent record's world translation,
following the record's own tag. -/
def transparentDepth (queue : NzForwardRenderQueue) (nearPlane : NzPlanef)
    (p : ℕ × Bool) : ℚ :=
  nearPlane.Distance (transparentRecordMatrix queue p).GetTranslation

/-- `TransparentModelComparator::operator()`.  Faithful to the source,
including that the store for `matrix2` is selected by `index1.second`. -/
def TransparentModelComparator (queue : NzForwardRenderQueue) (nearPlane : NzPlanef)
    (index1 index2 : ℕ × Bool) : Bool :=
  let matrix1 :=
    if index1.2 then (queue.transparentStaticModels.getD index1.1 default).transformMatrix
    else (queue.transparentSkeletalModels.getD index1.1 default).transformMatrix
  let matrix2 :=
    if index1.2 then (queue.transparentStaticModels.getD index2.1 default).transformMatrix
    else (queue.transparentSkeletalModels.getD index2.1 default).transformMatrix
  decide (nearPlane.Distance matrix1.GetTranslation < nearPlane.Distance matrix2.GetTranslation)

/-- One step of the comparison sort modelling `std::sort`: insert `a` into
an already-sorted list, descending past every element that the comparator
places strictly before `a`. -/
def sortInsert {α : Type} (cmp : α → α → Bool) (a : α) : List α → List α
  | [] => [a]
  | b :: l => if cmp b a then b :: sortInsert cmp a l else a :: b :: l

/-- `std::sort`, modelled as a deterministic comparison sort (insertion
sort) over the given comparator. -/
def stdSort {α : Type} (cmp : α → α → Bool) : List α → List α
  | [] => []
  | a :: l => sortInsert cmp a (stdSort cmp l)

/-- `NzForwardRenderQueue::Sort(camera)`: reorders only the transparent
index list, by the comparator built over this queue and the camera's near
frustum plane. -/
def NzForwardRenderQueue.Sort (camera : NzCamera) (q : NzForwardRenderQueue) :
    NzForwardRenderQueue :=
  { q with visibleTransparentsModels :=
      stdSort (TransparentModelComparator q camera.nearPlane) q.visibleTransparentsModels }

/-- The invariant the submission API maintains on the transparent index
list: every record is tagged static (the skeletal path is unimplemented)
and indexes into the static backing store. -/
def QueueWF (q : NzForwardRenderQueue) : Prop :=
  ∀ p ∈ q.visibleTransparentsModels, p.2 = true ∧ p.1 < q.transparentStaticModels.length

/-! ## Generic facts about the comparison-sort model -/

theorem sortInsert_perm {α : Type} (cmp : α → α → Bool) (a : α) (l : List α) :
    (sortInsert cmp a l).Perm (a :: l) := by
  induction l with
  | nil => simp [sortInsert]
  | cons b rest ih =>
    simp only [sortInsert]
    split
    · exact ((ih.cons b).trans (List.Perm.swap a b rest))
    · exact List.Perm.refl _

theorem stdSort_perm {α : Type} (cmp : α → α → Bool) (l : List α) :
    (stdSort cmp l).Perm l := by
  induction l with
  | nil => exact List.Perm.refl _
  | cons a rest ih => exact (sortInsert_perm cmp a (stdSort cmp rest)).trans (ih.cons a)

theorem mem_stdSort {α : Type} (cmp : α → α → Bool) {x : α} {l : List α} :
    x ∈ stdSort cmp l ↔ x ∈ l :=
  (stdSort_perm cmp l).mem_iff

theorem pairwiseImpMem {α : Type} {R S : α → α → Prop} :
    ∀ {l : List α}, (∀ a ∈ l, ∀ b ∈ l, R a b → S a b) → l.Pairwise R → l.Pairwise S := by
  intro l
  induction l with
  | nil => intro _ _; exact List.Pairwise.nil
  | cons a rest ih =>
    intro h hp
    rcases List.pairwise_cons.mp hp with ⟨ha, hrest⟩
    refine List.pairwise_cons.mpr ⟨fun b hb => ?_, ?_⟩
    · exact h a (List.mem_cons_self a rest) b (List.mem_cons_of_mem a hb) (ha b hb)
    · exact ih (fun x hx y hy => h x (List.mem_cons_of_mem a hx) y (List.mem_cons_of_mem a hy)) hrest

theorem sortInsert_pairwise {α : Type} (cmp : α → α → Bool) (k : α → ℚ) (a : α)
    (l : List α) (hl : l.Pairwise (fun x y => cmp y x = false))
    (hc : ∀ x ∈ a :: l, ∀ y ∈ a :: l, cmp x y = decide (k x < k y)) :
    (sortInsert cmp a l).Pairwise (fun x y => cmp y x = false) := by
  induction l with
  | nil => simp [sortInsert]
  | cons b rest ih =>
    rcases List.pairwise_cons.mp hl with ⟨hb, hrest⟩
    simp only [sortInsert]
    by_cases hba : cmp b a = true
    · rw [if_pos hba]
      refine List.pairwise_cons.mpr ⟨fun x hx => ?_, ?_⟩
      · rcases List.mem_cons.mp ((sortInsert_perm cmp a rest).mem_iff.mp hx) with hxa | hxr
        · subst hxa
          have h1 : cmp b x = decide (k b < k x) :=
            hc b (by simp) x (by simp)
          have h2 : cmp x b = decide (k x < k b) :=
            hc x (by simp) b (by simp)
          rw [h1] at hba
          have : k b < k x := of_decide_eq_true hba
          rw [h2, decide_eq_false_iff_not]
          exact fun h => absurd this (lt_asymm h)
        · exact hb x hxr
      · refine ih hrest (fun x hx y hy => ?_)
        have hx' : x ∈ a :: b :: rest := by
          rcases List.mem_cons.mp hx with h | h
          · simp [h]
          · simp [List.mem_cons_of_mem, h]
        have hy' : y ∈ a :: b :: rest := by
          rcases List.mem_cons.mp hy with h | h
          · simp [h]
          · simp [List.mem_cons_of_mem, h]
        exact hc x hx' y hy'
    · have hba' : cmp b a = false := by
        cases h : cmp b a
        · rfl
        · exact absurd h hba
      rw [if_neg (by simp [hba'])]
      refine List.pairwise_cons.mpr ⟨fun x hx => ?_, hl⟩
      rcases List.mem_cons.mp hx with hxb | hxr
      · subst hxb; exact hba'
      · -- k a ≤ k b ≤ k x, so cmp x a = false
        have h1 : cmp b a = decide (k b < k a) := hc b (by simp) a (by simp)
        have h2 : cmp x b = decide (k x < k b) :=
          hc x (by simp [List.mem_cons_of_mem, hxr]) b (by simp)
        have h3 : cmp x a = decide (k x < k a) :=
          hc x (by simp [List.mem_cons_of_mem, hxr]) a (by simp)
        have hab : ¬ k b < k a := by
          rw [h1, decide_eq_false_iff_not] at hba'; exact hba'
        have hbx : ¬ k x < k b := by
          have := hb x hxr
          rw [h2, decide_eq_false_iff_not] at this; exact this
        rw [h3, decide_eq_false_iff_not]
        intro hxa
        exact hab (lt_of_le_of_lt (le_of_not_lt hbx) hxa)

theorem stdSort_pairwise {α : Type} (cmp : α → α → Bool) (k : α → ℚ) (l : List α)
    (hc : ∀ x ∈ l, ∀ y ∈ l, cmp x y = decide (k x < k y)) :
    (stdSort cmp l).Pairwise (fun x y => cmp y x = false) := by
  induction l with
  | nil => exact List.Pairwise.nil
  | cons a rest ih =>
    simp only [stdSort]
    refine sortInsert_pairwise cmp k a (stdSort cmp rest)
      (ih (fun x hx y hy => hc x (List.mem_cons_of_mem a hx) y (List.mem_cons_of_mem a hy)))
      (fun x hx y hy => ?_)
    have hx' : x ∈ a :: rest := by
      rcases List.mem_cons.mp hx with h | h
      · simp [h]
      · exact List.mem_cons_of_mem a ((mem_stdSort cmp).mp h)
    have hy' : y ∈ a :: rest := by
      rcases List.mem_cons.mp hy with h | h
      · simp [h]
      · exact List.mem_cons_of_mem a ((mem_stdSort cmp).mp h)
    exact hc x hx' y hy'

theorem stdSort_eq_self {α : Type} (cmp : α → α → Bool) (l : List α)
    (h : l.Pairwise (fun x y => cmp y x = false)) : stdSort cmp l = l := by
  induction l with
  | nil => rfl
  | cons a rest ih =>
    rcases List.pairwise_cons.mp h with ⟨ha, hrest⟩
    simp only [stdSort]
    rw [ih hrest]
    cases rest with
    | nil => rfl
    | cons b rest' =>
      have : cmp b a = false := ha b (List.mem_cons_self b rest')
      simp [sortInsert, this]

theorem stdSort_idem {α : Type} (cmp : α → α → Bool) (k : α → ℚ) (l : List α)
    (hc : ∀ x ∈ l, ∀ y ∈ l, cmp x y = decide (k x < k y)) :
    stdSort cmp (stdSort cmp l) = stdSort cmp l :=
  stdSort_eq_self cmp (stdSort cmp l) (stdSort_pairwise cmp k l hc)

theorem stdSort_pairwise_key {α : Type} (cmp : α → α → Bool) (k : α → ℚ) (l : List α)
    (hc : ∀ x ∈ l, ∀ y ∈ l, cmp x y = decide (k x < k y)) :
    (stdSort cmp l).Pairwise (fun x y => k x ≤ k y) := by
  refine pairwiseImpMem (fun a ha b hb hab => ?_) (stdSort_pairwise cmp k l hc)
  have := hc b ((mem_stdSort cmp).mp hb) a ((mem_stdSort cmp).mp ha)
  rw [this, decide_eq_false_iff_not] at hab
  exact le_of_not_lt hab

/-! ## Helper lemmas about the light -/

theorem updateBoundingVolume_flag (o : MathOracle) (s : NzLight) :
    (s.UpdateBoundingVolume o).boundingVolumeUpdated = true := by
  unfold NzLight.UpdateBoundingVolume
  split <;> rfl

/-! ## Claim theorems -/

/-- C8: submitting a null pointer to AddLight, AddModel, or AddDrawable
logs an error and leaves the queue untouched; a non-null light is appended
to `directionnalLights` when Directional, to `visibleLights` when Point or
Spot, and an unknown type value is dropped without touching any container,
logged in debug builds only. -/
theorem C8_null_and_classification (dbg : Bool) (q : NzForwardRenderQueue) :
    NzForwardRenderQueue.AddLight dbg none q = (q, ["Invalid light"]) ∧
    NzForwardRenderQueue.AddModel none q = (q, ["Invalid model"]) ∧
    NzForwardRenderQueue.AddDrawable none q = (q, ["Invalid drawable"]) ∧
    (∀ l : NzLight, l.type = nzLightType_Directional →
      NzForwardRenderQueue.AddLight dbg (some l) q =
        ({ q with directionnalLights := q.directionnalLights ++ [l] }, [])) ∧
    (∀ l : NzLight, l.type = nzLightType_Point ∨ l.type = nzLightType_Spot →
      NzForwardRenderQueue.AddLight dbg (some l) q =
        ({ q with visibleLights := q.visibleLights ++ [l] }, [])) ∧
    (∀ l : NzLight, 3 ≤ l.type →
      (NzForwardRenderQueue.AddLight dbg (some l) q).1 = q ∧
      (NzForwardRenderQueue.AddLight dbg (some l) q).2 =
        (if dbg then ["Light type not handled"] else [])) := by
  refine ⟨rfl, rfl, rfl, ?_, ?_, ?_⟩
  · intro l hl
    simp [NzForwardRenderQueue.AddLight, hl, nzLightType_Directional]
  · intro l hl
    rcases hl with hl | hl <;>
      simp [NzForwardRenderQueue.AddLight, hl, nzLightType_Point, nzLightType_Spot]
  · intro l hl
    obtain ⟨m, hm⟩ : ∃ m, l.type = m + 3 := ⟨l.type - 3, by omega⟩
    simp [NzForwardRenderQueue.AddLight, hm]

/-- C8 witness: the theorem applied to a concrete queue and lights of each
classification. -/
theorem C8_null_and_classification_witness :
    (NzForwardRenderQueue.AddLight true (some (NzLight.mk' 0)) emptyQueue =
      ({ emptyQueue with directionnalLights := [NzLight.mk' 0] }, [])) ∧
    (NzForwardRenderQueue.AddLight true (some (NzLight.mk' 2)) emptyQueue =
      ({ emptyQueue with visibleLights := [NzLight.mk' 2] }, [])) ∧
    (NzForwardRenderQueue.AddLight true (some (NzLight.mk' 7)) emptyQueue).1 = emptyQueue := by
  have h := C8_null_and_classification true emptyQueue
  refine ⟨?_, ?_, ?_⟩
  · have := h.2.2.2.1 (NzLight.mk' 0) (by rfl)
    simpa [emptyQueue] using this
  · have := h.2.2.2.2.1 (NzLight.mk' 2) (Or.inr rfl)
    simpa [emptyQueue] using this
  · exact (h.2.2.2.2.2 (NzLight.mk' 7) (by norm_num [NzLight.mk'])).1

/-- C6: FrustumCull returns true unconditionally for a Directional light;
for Point it refreshes the stale derived transform and returns the
frustum's verdict on the sphere of the light's radius at the derived world
position; for Spot it brings the bounding volume up to date and returns the
frustum's verdict on that volume; any other type value reports an error and
returns false. -/
theorem C6_frustumCull :
    (∀ (o : MathOracle) (f : NzFrustumf) (s : NzLight), s.type = nzLightType_Directional →
      (s.FrustumCull o f).1 = true) ∧
    (∀ (o : MathOracle) (f : NzFrustumf) (s : NzLight), s.type = nzLightType_Point →
      (s.FrustumCull o f).1 = f.containsSphere ⟨s.derivedPosition, s.radius⟩ ∧
      (s.FrustumCull o f).2.1.derivedUpdated = true) ∧
    (∀ (o : MathOracle) (f : NzFrustumf) (s : NzLight), s.type = nzLightType_Spot →
      (s.FrustumCull o f).1 =
        f.containsVolume
          ((if s.boundingVolumeUpdated then s else s.UpdateBoundingVolume o).boundingVolume) ∧
      (s.FrustumCull o f).2.1.boundingVolumeUpdated = true) ∧
    (∀ (o : MathOracle) (f : NzFrustumf) (s : NzLight), 3 ≤ s.type →
      (s.FrustumCull o f).1 = false ∧ (s.FrustumCull o f).2.2 ≠ []) := by
  refine ⟨?_, ?_, ?_, ?_⟩
  · intro o f s hs
    simp [NzLight.FrustumCull, hs, nzLightType_Directional]
  · intro o f s hs
    by_cases hd : s.derivedUpdated <;>
      simp [NzLight.FrustumCull, hs, nzLightType_Point, hd, NzLight.UpdateDerived]
  · intro o f s hs
    by_cases hb : s.boundingVolumeUpdated <;>
      simp [NzLight.FrustumCull, hs, nzLightType_Spot, hb, updateBoundingVolume_flag]
  · intro o f s hs
    obtain ⟨m, hm⟩ : ∃ m, s.type = m + 3 := ⟨s.type - 3, by omega⟩
    simp [NzLight.FrustumCull, hm]

/-- C6 witness: the theorem applied to concrete lights of each type and an
always-true frustum. -/
theorem C6_frustumCull_witness :
    ((NzLight.mk' 0).FrustumCull ⟨fun _ => 0, fun _ => 0⟩
      ⟨fun _ => true, fun _ => true⟩).1 = true ∧
    ((NzLight.mk' 1).FrustumCull ⟨fun _ => 0, fun _ => 0⟩
      ⟨fun _ => false, fun _ => false⟩).1 = false ∧
    ((NzLight.mk' 9).FrustumCull ⟨fun _ => 0, fun _ => 0⟩
      ⟨fun _ => true, fun _ => true⟩).1 = false := by
  refine ⟨?_, ?_, ?_⟩
  · exact C6_frustumCull.1 ⟨fun _ => 0, fun _ => 0⟩ ⟨fun _ => true, fun _ => true⟩
      (NzLight.mk' 0) rfl
  · have := (C6_frustumCull.2.1 ⟨fun _ => 0, fun _ => 0⟩
      ⟨fun _ => false, fun _ => false⟩ (NzLight.mk' 1) rfl).1
    simpa using this
  · exact (C6_frustumCull.2.2.2 ⟨fun _ => 0, fun _ => 0⟩ ⟨fun _ => true, fun _ => true⟩
      (NzLight.mk' 9) (by norm_num [NzLight.mk'])).1

/-- C7: SetOuterAngle and SetRadius invalidate the bounding-volume cache,
so the next GetBoundingVolume reflects the new value; the other setters —
SetAmbientFactor, SetAttenuation, SetColor, SetDiffuseFactor,
SetInnerAngle, and SetLightType — leave the cached volume and its validity
flag untouched, SetLightType in particular invalidating neither the
bounding volume nor the derived state. -/
theorem C7_cache_invalidation :
    (∀ (s : NzLight) (a : ℚ),
      (s.SetOuterAngle a).boundingVolume = .null ∧
      (s.SetOuterAngle a).boundingVolumeUpdated = false ∧
      (s.SetOuterAngle a).outerAngle = a) ∧
    (∀ (s : NzLight) (r : ℚ),
      (s.SetRadius r).boundingVolume = .null ∧
      (s.SetRadius r).boundingVolumeUpdated = false ∧
      (s.SetRadius r).radius = r) ∧
    (∀ (o : MathOracle) (s : NzLight) (r : ℚ), s.type = nzLightType_Point →
      ((s.SetRadius r).GetBoundingVolume o).1 =
        .finite ⟨⟨-r, -r, -r⟩, ⟨r, r, r⟩⟩ (some (NzMatrix4f.Translate s.derivedPosition))) ∧
    (∀ (o : MathOracle) (s : NzLight) (a : ℚ), s.type = nzLightType_Spot →
      ((s.SetOuterAngle a).GetBoundingVolume o).1 =
        .finite (spotLocalBox o s.radius a)
          (some (NzMatrix4f.Transform s.derivedPosition s.derivedRotation))) ∧
    (∀ (s : NzLight) (x : ℚ),
      (s.SetAmbientFactor x).boundingVolume = s.boundingVolume ∧
      (s.SetAmbientFactor x).boundingVolumeUpdated = s.boundingVolumeUpdated ∧
      (s.SetAttenuation x).boundingVolume = s.boundingVolume ∧
      (s.SetAttenuation x).boundingVolumeUpdated = s.boundingVolumeUpdated ∧
      (s.SetDiffuseFactor x).boundingVolume = s.boundingVolume ∧
      (s.SetDiffuseFactor x).boundingVolumeUpdated = s.boundingVolumeUpdated ∧
      (s.SetInnerAngle x).boundingVolume = s.boundingVolume ∧
      (s.SetInnerAngle x).boundingVolumeUpdated = s.boundingVolumeUpdated) ∧
    (∀ (s : NzLight) (c : NzColor),
      (s.SetColor c).boundingVolume = s.boundingVolume ∧
      (s.SetColor c).boundingVolumeUpdated = s.boundingVolumeUpdated) ∧
    (∀ (s : NzLight) (t : ℕ),
      (s.SetLightType t).boundingVolume = s.boundingVolume ∧
      (s.SetLightType t).boundingVolumeUpdated = s.boundingVolumeUpdated ∧
      (s.SetLightType t).derivedUpdated = s.derivedUpdated ∧
      (s.SetLightType t).derivedPosition = s.derivedPosition ∧
      (s.SetLightType t).derivedRotation = s.derivedRotation) := by
  refine ⟨fun s a => ⟨rfl, rfl, rfl⟩, fun s r => ⟨rfl, rfl, rfl⟩, ?_, ?_,
    fun s x => ⟨rfl, rfl, rfl, rfl, rfl, rfl, rfl, rfl⟩,
    fun s c => ⟨rfl, rfl⟩, fun s t => ⟨rfl, rfl, rfl, rfl, rfl⟩⟩
  · intro o s r hs
    by_cases hd : s.derivedUpdated <;>
      simp [NzLight.GetBoundingVolume, NzLight.UpdateBoundingVolume, NzLight.SetRadius,
        NzLight.UpdateDerived, NzBoundingVolumef.IsNull, NzBoundingVolumef.SetCorners,
        NzBoundingVolumef.Update, hs, nzLightType_Point, nzLightType_Directional, hd]
  · intro o s a hs
    by_cases hd : s.derivedUpdated <;>
      simp [NzLight.GetBoundingVolume, NzLight.UpdateBoundingVolume, NzLight.SetOuterAngle,
        NzLight.UpdateDerived, NzBoundingVolumef.IsNull, NzBoundingVolumef.SetBox,
        NzBoundingVolumef.Update, hs, nzLightType_Spot, nzLightType_Directional, hd]

/-- C7 witness: the theorem applied to concrete point and spot lights and a
concrete new radius and outer angle. -/
theorem C7_cache_invalidation_witness :
    (((NzLight.mk' 1).SetRadius 7).GetBoundingVolume ⟨fun _ => 0, fun _ => 0⟩).1 =
      .finite ⟨⟨-7, -7, -7⟩, ⟨7, 7, 7⟩⟩ (some (NzMatrix4f.Translate NzVector3f.Zero)) ∧
    (((NzLight.mk' 2).SetOuterAngle 30).GetBoundingVolume ⟨fun _ => 1, fun _ => 0⟩).1 =
      .finite (spotLocalBox ⟨fun _ => 1, fun _ => 0⟩ 5 30)
        (some (NzMatrix4f.Transform NzVector3f.Zero NzQuaternionf.Identity)) := by
  constructor
  · exact C7_cache_invalidation.2.2.1 ⟨fun _ => 0, fun _ => 0⟩ (NzLight.mk' 1) 7 rfl
  · exact C7_cache_invalidation.2.2.2.1 ⟨fun _ => 1, fun _ => 0⟩ (NzLight.mk' 2) 30 rfl

set_option maxHeartbeats 3200000 in
/-- C9: the bounding-volume recompute yields an infinite volume with no
placement for Directional; for Point a box of half-extent the radius about
the origin, translated to the derived world position; for Spot the
degenerate-apex box extended to the four far-plane corners (at forward
distance radius, half-width radius * tan(outerAngle)), transformed by the
derived position and rotation; and the recompute is idempotent. -/
theorem C9_boundingVolume_recompute :
    (∀ (o : MathOracle) (s : NzLight), s.type = nzLightType_Directional →
      (s.boundingVolume = .null ∨ s.boundingVolume = .infinite) →
      (s.UpdateBoundingVolume o).boundingVolume = .infinite ∧
      (s.UpdateBoundingVolume o).boundingVolumeUpdated = true) ∧
    (∀ (o : MathOracle) (s : NzLight), s.type = nzLightType_Point →
      s.boundingVolume = .null →
      (s.UpdateBoundingVolume o).boundingVolume =
        .finite ⟨⟨-s.radius, -s.radius, -s.radius⟩, ⟨s.radius, s.radius, s.radius⟩⟩
          (some (NzMatrix4f.Translate s.derivedPosition))) ∧
    (∀ (o : MathOracle) (s : NzLight), s.type = nzLightType_Spot →
      s.boundingVolume = .null →
      (s.UpdateBoundingVolume o).boundingVolume =
        .finite (spotLocalBox o s.radius s.outerAngle)
          (some (NzMatrix4f.Transform s.derivedPosition s.derivedRotation))) ∧
    (∀ (o : MathOracle) (radius outerAngle : ℚ),
      0 ≤ radius → 0 ≤ radius * o.tanDeg outerAngle →
      spotLocalBox o radius outerAngle =
        ⟨⟨-(radius * o.tanDeg outerAngle), -(radius * o.tanDeg outerAngle), 0⟩,
         ⟨radius * o.tanDeg outerAngle, radius * o.tanDeg outerAngle, radius⟩⟩) ∧
    (∀ (o : MathOracle) (s : NzLight),
      (s.UpdateBoundingVolume o).UpdateBoundingVolume o = s.UpdateBoundingVolume o) := by
  refine ⟨?_, ?_, ?_, ?_, ?_⟩
  · intro o s hs hv
    rcases hv with hv | hv <;>
      simp [NzLight.UpdateBoundingVolume, hs, hv, nzLightType_Directional,
        NzBoundingVolumef.IsNull, NzBoundingVolumef.Update]
  · intro o s hs hv
    by_cases hd : s.derivedUpdated <;>
      simp [NzLight.UpdateBoundingVolume, NzLight.UpdateDerived, hs, hv,
        nzLightType_Point, nzLightType_Directional, NzBoundingVolumef.IsNull,
        NzBoundingVolumef.SetCorners, NzBoundingVolumef.Update, hd]
  · intro o s hs hv
    by_cases hd : s.derivedUpdated <;>
      simp [NzLight.UpdateBoundingVolume, NzLight.UpdateDerived, hs, hv,
        nzLightType_Spot, nzLightType_Directional, NzBoundingVolumef.IsNull,
        NzBoundingVolumef.SetBox, NzBoundingVolumef.Update, hd]
  · intro o radius outerAngle h1 h2
    simp only [spotLocalBox, NzBoxf.ofPoint, NzBoxf.ExtendTo, NzVector3f.add,
      NzVector3f.sub, NzVector3f.scale, NzVector3f.Forward, NzVector3f.Left,
      NzVector3f.Up, NzVector3f.Zero, NzBoxf.mk.injEq, NzVector3f.mk.injEq]
    refine ⟨⟨?_, ?_, ?_⟩, ?_, ?_, ?_⟩ <;>
      · simp only [min_def, max_def]
        split_ifs <;> linarith
  · intro o s
    rcases s with ⟨type, color, bv, bvu, af, att, df, ia, oa, rad, dp, dr, du⟩
    rcases type with _ | _ | _ | n <;> rcases bv with _ | _ | ⟨box, pl⟩ <;> cases du <;>
      rfl

/-- C9 witness: the theorem applied to fresh directional, point, and spot
lights and a concrete oracle. -/
theorem C9_boundingVolume_recompute_witness :
    ((NzLight.mk' 0).UpdateBoundingVolume ⟨fun _ => 1, fun _ => 0⟩).boundingVolume =
      .infinite ∧
    ((NzLight.mk' 1).UpdateBoundingVolume ⟨fun _ => 1, fun _ => 0⟩).boundingVolume =
      .finite ⟨⟨-5, -5, -5⟩, ⟨5, 5, 5⟩⟩ (some (NzMatrix4f.Translate NzVector3f.Zero)) ∧
    ((NzLight.mk' 2).UpdateBoundingVolume ⟨fun _ => 1, fun _ => 0⟩).boundingVolume =
      .finite (spotLocalBox ⟨fun _ => 1, fun _ => 0⟩ 5 45)
        (some (NzMatrix4f.Transform NzVector3f.Zero NzQuaternionf.Identity)) ∧
    spotLocalBox ⟨fun _ => 1, fun _ => 0⟩ 5 45 = ⟨⟨-5, -5, 0⟩, ⟨5, 5, 5⟩⟩ := by
  refine ⟨?_, ?_, ?_, ?_⟩
  · exact (C9_boundingVolume_recompute.1 ⟨fun _ => 1, fun _ => 0⟩ (NzLight.mk' 0) rfl
      (Or.inl rfl)).1
  · exact C9_boundingVolume_recompute.2.1 ⟨fun _ => 1, fun _ => 0⟩ (NzLight.mk' 1) rfl rfl
  · exact C9_boundingVolume_recompute.2.2.1 ⟨fun _ => 1, fun _ => 0⟩ (NzLight.mk' 2) rfl rfl
  · have := C9_boundingVolume_recompute.2.2.2.1 ⟨fun _ => 1, fun _ => 0⟩ 5 45
      (by norm_num) (by norm_num)
    simpa using this

theorem applySends_unwritten (sends : List (ℤ × UniformValue)) :
    ∀ (store : ℤ → UniformValue) (loc : ℤ), loc ∉ sends.map Prod.fst →
      applySends sends store loc = store loc := by
  induction sends with
  | nil => intro store loc _; rfl
  | cons a rest ih =>
    intro store loc h
    simp only [List.map_cons, List.mem_cons, not_or] at h
    have step : applySends (a :: rest) store = applySends rest (Function.update store a.1 a.2) := rfl
    rw [step, ih (Function.update store a.1 a.2) loc h.2, Function.update_noteq h.1]

/-- C10: for a Directional light, Enable writes only the slot's type,
color, factors, and parameters1 uniforms; for a Point light it writes
those plus parameters2 but never parameters3; only a Spot light writes all
six; and a location no send targets keeps its previous store value. -/
theorem C10_enable_writes :
    (∀ (o : MathOracle) (p : NzShaderProgram) (u : ℕ) (s : NzLight),
      s.type = nzLightType_Directional →
      (s.Enable o p u).1 =
        [(enableLocation p u "type", .int (s.type : ℤ)),
         (enableLocation p u "color", .color s.color),
         (enableLocation p u "factors", .vec2 s.ambientFactor s.diffuseFactor),
         (enableLocation p u "parameters1",
           .vec4 (NzVector4f.ofVec3 (s.derivedRotation.rotate NzVector3f.Forward)))]) ∧
    (∀ (o : MathOracle) (p : NzShaderProgram) (u : ℕ) (s : NzLight),
      s.type = nzLightType_Point →
      (s.Enable o p u).1 =
        [(enableLocation p u "type", .int (s.type : ℤ)),
         (enableLocation p u "color", .color s.color),
         (enableLocation p u "factors", .vec2 s.ambientFactor s.diffuseFactor),
         (enableLocation p u "parameters1",
           .vec4 ⟨s.derivedPosition.x, s.derivedPosition.y, s.derivedPosition.z, s.attenuation⟩),
         (enableLocation p u "parameters2", .vec4 ⟨0, 0, 0, 1 / s.radius⟩)]) ∧
    (∀ (o : MathOracle) (p : NzShaderProgram) (u : ℕ) (s : NzLight),
      s.type = nzLightType_Spot →
      (s.Enable o p u).1 =
        [(enableLocation p u "type", .int (s.type : ℤ)),
         (enableLocation p u "color", .color s.color),
         (enableLocation p u "factors", .vec2 s.ambientFactor s.diffuseFactor),
         (enableLocation p u "parameters1",
           .vec4 ⟨s.derivedPosition.x, s.derivedPosition.y, s.derivedPosition.z, s.attenuation⟩),
         (enableLocation p u "parameters2",
           .vec4 ⟨(s.derivedRotation.rotate NzVector3f.Forward).x,
                  (s.derivedRotation.rotate NzVector3f.Forward).y,
                  (s.derivedRotation.rotate NzVector3f.Forward).z, 1 / s.radius⟩),
         (enableLocation p u "parameters3",
           .vec2 (o.cosDeg s.innerAngle) (o.cosDeg s.outerAngle))]) ∧
    (∀ (sends : List (ℤ × UniformValue)) (store : ℤ → UniformValue) (loc : ℤ),
      loc ∉ sends.map Prod.fst → applySends sends store loc = store loc) := by
  refine ⟨?_, ?_, ?_, applySends_unwritten⟩ <;>
    · intro o p u s hs
      by_cases hd : s.derivedUpdated <;>
        simp [NzLight.Enable, NzLight.UpdateDerived, hs, hd, nzLightType_Directional,
          nzLightType_Point, nzLightType_Spot]

/-- C10 witness: the theorem applied to a concrete point light, a constant
location table, and a concrete untouched store location. -/
theorem C10_enable_writes_witness :
    ((NzLight.mk' 1).Enable ⟨fun _ => 0, fun _ => 0⟩ ⟨fun _ => 0⟩ 0).1 =
      [((0 : ℤ), .int 1), (0, .color NzColor.White), (0, .vec2 0 1),
       (0, .vec4 ⟨0, 0, 0, 9/10⟩), (0, .vec4 ⟨0, 0, 0, 1/5⟩)] ∧
    applySends [((0 : ℤ), UniformValue.int 1)] (fun _ => UniformValue.int 5) 3 =
      UniformValue.int 5 := by
  constructor
  · have h := C10_enable_writes.2.1 ⟨fun _ => 0, fun _ => 0⟩ ⟨fun _ => 0⟩ 0
      (NzLight.mk' 1) rfl
    simpa [enableLocation, enableOffset, NzLight.mk', NzVector3f.Zero] using h
  · exact C10_enable_writes.2.2.2 [((0 : ℤ), UniformValue.int 1)]
      (fun _ => UniformValue.int 5) 3 (by decide)

theorem matKey_id (m : NzMaterial) : (matKey m).2.2.2 = m.id := by
  rcases h : m.customShader with _ | s <;> simp [matKey, h]

/-- C5: MaterialComparator puts a material with a custom shader before one
without; with two distinct custom shaders it orders by shader identity;
with no custom shaders and distinct feature bitmasks it orders by bitmask;
in all remaining cases it falls back to material identity — and the
relation is a strict total order (irreflexive, asymmetric, transitive, and
total on materials of distinct identity). -/
theorem C5_materialComparator :
    (∀ m1 m2 : NzMaterial, m1.customShader.isSome → m2.customShader = none →
      MaterialComparator m1 m2 = true) ∧
    (∀ (m1 m2 : NzMaterial) (s1 s2 : ℕ), m1.customShader = some s1 →
      m2.customShader = some s2 → s1 ≠ s2 →
      MaterialComparator m1 m2 = decide (s1 < s2)) ∧
    (∀ m1 m2 : NzMaterial, m1.customShader = none → m2.customShader = none →
      m1.shaderFlags ≠ m2.shaderFlags →
      MaterialComparator m1 m2 = decide (m1.shaderFlags < m2.shaderFlags)) ∧
    (∀ (m1 m2 : NzMaterial) (s : ℕ), m1.customShader = some s → m2.customShader = some s →
      MaterialComparator m1 m2 = decide (m1.id < m2.id)) ∧
    (∀ m1 m2 : NzMaterial, m1.customShader = none → m2.customShader = none →
      m1.shaderFlags = m2.shaderFlags →
      MaterialComparator m1 m2 = decide (m1.id < m2.id)) ∧
    (∀ m : NzMaterial, MaterialComparator m m = false) ∧
    (∀ m1 m2 : NzMaterial, MaterialComparator m1 m2 = true →
      MaterialComparator m2 m1 = false) ∧
    (∀ m1 m2 m3 : NzMaterial, MaterialComparator m1 m2 = true →
      MaterialComparator m2 m3 = true → MaterialComparator m1 m3 = true) ∧
    (∀ m1 m2 : NzMaterial, m1.id ≠ m2.id →
      MaterialComparator m1 m2 = true ∨ MaterialComparator m2 m1 = true) := by
  refine ⟨?_, ?_, ?_, ?_, ?_, ?_, ?_, ?_, ?_⟩
  · intro m1 m2 h1 h2
    rcases Option.isSome_iff_exists.mp h1 with ⟨s, hs⟩
    simp [MaterialComparator, hs, h2]
  · intro m1 m2 s1 s2 h1 h2 hne
    simp [MaterialComparator, h1, h2, hne]
  · intro m1 m2 h1 h2 hne
    simp [MaterialComparator, h1, h2, hne]
  · intro m1 m2 s h1 h2
    simp [MaterialComparator, h1, h2]
  · intro m1 m2 h1 h2 hfl
    simp [MaterialComparator, h1, h2, hfl]
  · intro m
    have h := materialComparator_iff_lex m m
    rcases hc : MaterialComparator m m with _ | _
    · rfl
    · exfalso
      have := h.mp hc
      simp only [lex4] at this
      omega
  · intro m1 m2 h12
    have k12 := (materialComparator_iff_lex m1 m2).mp h12
    rcases hc : MaterialComparator m2 m1 with _ | _
    · rfl
    · exfalso
      have k21 := (materialComparator_iff_lex m2 m1).mp hc
      simp only [lex4] at k12 k21
      omega
  · intro m1 m2 m3 h12 h23
    have k12 := (materialComparator_iff_lex m1 m2).mp h12
    have k23 := (materialComparator_iff_lex m2 m3).mp h23
    refine (materialComparator_iff_lex m1 m3).mpr ?_
    simp only [lex4] at k12 k23 ⊢
    omega
  · intro m1 m2 hid
    have h4 : (matKey m1).2.2.2 ≠ (matKey m2).2.2.2 := by
      rw [matKey_id, matKey_id]; exact hid
    have : lex4 (matKey m1) (matKey m2) ∨ lex4 (matKey m2) (matKey m1) := by
      simp only [lex4]
      omega
    rcases this with h | h
    · exact Or.inl ((materialComparator_iff_lex m1 m2).mpr h)
    · exact Or.inr ((materialComparator_iff_lex m2 m1).mpr h)

/-- C5 witness: the theorem applied to concrete materials covering the
ordering criteria and the total-order clauses. -/
theorem C5_materialComparator_witness :
    MaterialComparator ⟨some 4, 0, false, 10⟩ ⟨none, 7, false, 11⟩ = true ∧
    MaterialComparator ⟨some 4, 0, false, 10⟩ ⟨some 9, 7, false, 11⟩ = true ∧
    MaterialComparator ⟨none, 3, false, 10⟩ ⟨none, 7, false, 11⟩ = true ∧
    MaterialComparator ⟨none, 3, false, 12⟩ ⟨none, 3, false, 11⟩ = false ∧
    (MaterialComparator ⟨none, 3, false, 12⟩ ⟨none, 3, false, 11⟩ = true ∨
      MaterialComparator ⟨none, 3, false, 11⟩ ⟨none, 3, false, 12⟩ = true) := by
  refine ⟨?_, ?_, ?_, ?_, ?_⟩
  · exact C5_materialComparator.1 ⟨some 4, 0, false, 10⟩ ⟨none, 7, false, 11⟩ (by decide) rfl
  · have := C5_materialComparator.2.1 ⟨some 4, 0, false, 10⟩ ⟨some 9, 7, false, 11⟩ 4 9
      rfl rfl (by decide)
    simpa using this
  · have := C5_materialComparator.2.2.1 ⟨none, 3, false, 10⟩ ⟨none, 7, false, 11⟩
      rfl rfl (by decide)
    simpa using this
  · have := C5_materialComparator.2.2.2.2.1 ⟨none, 3, false, 12⟩ ⟨none, 3, false, 11⟩
      rfl rfl rfl
    simpa using this
  · exact C5_materialComparator.2.2.2.2.2.2.2.2 ⟨none, 3, false, 12⟩ ⟨none, 3, false, 11⟩
      (by decide)

/-- C2: the mesh comparators in the source do not realize the documented
index-buffer-first ordering.  Both comparators read `subMesh1`'s index
buffer for both operands, so two meshes with different index-buffer storage
are ordered by the later tie-breaks instead: here the first static mesh
holds index buffer 5 and the second index buffer 3, so the intended order
puts the first mesh after the second, yet the code orders it first (their
vertex buffers are equal and the pointer tie-break fires).  The skeletal
comparator diverges likewise, and its unequal-buffer branch is the constant
`buffer2 < buffer2`, which is false. -/
theorem C2_comparator_divergence :
    (StaticMeshComparator ⟨some 5, 1, 1⟩ ⟨some 3, 1, 2⟩ = true ∧
     specStaticMeshOrder ⟨some 5, 1, 1⟩ ⟨some 3, 1, 2⟩ = false) ∧
    (SkeletalMeshComparator ⟨some 5, 1⟩ ⟨some 3, 2⟩ = true ∧
     specSkeletalMeshOrder ⟨some 5, 1⟩ ⟨some 3, 2⟩ = false) ∧
    (∀ b : ℕ, decide (b < b) = false) := by
  refine ⟨by decide, by decide, fun b => by simp⟩

/-- C4: two opaque static submissions with the same (material, mesh) pair
end up in exactly one grouping bucket holding both transforms in submission
order; an alpha-blended submission goes only to the transparent stores and
never into the opaque grouping structure; an opaque submission never
touches the transparent stores. -/
theorem C4_grouping_and_separation :
    (∀ (sm : NzSubMesh) (mat : NzMaterial) (t1 t2 : NzMatrix4f) (g1 g2 : ℕ → NzMaterial),
      sm.animationType = .static → mat.alphaBlendingEnabled = false →
      g1 sm.materialIndex = mat → g2 sm.materialIndex = mat →
      ((NzForwardRenderQueue.AddModel (some ⟨true, t2, ⟨[sm]⟩, g2⟩)
          ((NzForwardRenderQueue.AddModel (some ⟨true, t1, ⟨[sm]⟩, g1⟩)
            emptyQueue).1)).1).visibleModels =
        [(mat, [(sm.asStatic, [t1, t2])])]) ∧
    (∀ (q : NzForwardRenderQueue) (sm : NzSubMesh) (t : NzMatrix4f) (g : ℕ → NzMaterial),
      sm.animationType = .static → (g sm.materialIndex).alphaBlendingEnabled = true →
      ((NzForwardRenderQueue.AddModel (some ⟨true, t, ⟨[sm]⟩, g⟩) q).1).visibleModels =
          q.visibleModels ∧
      ((NzForwardRenderQueue.AddModel (some ⟨true, t, ⟨[sm]⟩, g⟩) q).1).transparentStaticModels =
          q.transparentStaticModels ++ [⟨g sm.materialIndex, sm.asStatic, t⟩] ∧
      ((NzForwardRenderQueue.AddModel (some ⟨true, t, ⟨[sm]⟩, g⟩) q).1).visibleTransparentsModels =
          q.visibleTransparentsModels ++ [(q.transparentStaticModels.length, true)]) ∧
    (∀ (q : NzForwardRenderQueue) (sm : NzSubMesh) (t : NzMatrix4f) (g : ℕ → NzMaterial),
      sm.animationType = .static → (g sm.materialIndex).alphaBlendingEnabled = false →
      ((NzForwardRenderQueue.AddModel (some ⟨true, t, ⟨[sm]⟩, g⟩) q).1).transparentStaticModels =
          q.transparentStaticModels ∧
      ((NzForwardRenderQueue.AddModel (some ⟨true, t, ⟨[sm]⟩, g⟩) q).1).transparentSkeletalModels =
          q.transparentSkeletalModels ∧
      ((NzForwardRenderQueue.AddModel (some ⟨true, t, ⟨[sm]⟩, g⟩) q).1).visibleTransparentsModels =
          q.visibleTransparentsModels) := by
  refine ⟨?_, ?_, ?_⟩
  · intro sm mat t1 t2 g1 g2 ha hb hg1 hg2
    simp [NzForwardRenderQueue.AddModel, addSubMeshStep, updateAssoc, emptyQueue,
      ha, hb, hg1, hg2]
  · intro q sm t g ha hb
    refine ⟨?_, ?_, ?_⟩ <;>
      simp [NzForwardRenderQueue.AddModel, addSubMeshStep, ha, hb]
  · intro q sm t g ha hb
    refine ⟨?_, ?_, ?_⟩ <;>
      simp [NzForwardRenderQueue.AddModel, addSubMeshStep, ha, hb]

/-- C4 witness: the theorem applied to a concrete submesh, material, and
two concrete transforms. -/
theorem C4_grouping_and_separation_witness :
    ((NzForwardRenderQueue.AddModel
        (some ⟨true, NzMatrix4f.Translate ⟨2, 0, 0⟩, ⟨[⟨.static, 0, ⟨some 1, 2, 3⟩⟩]⟩,
          fun _ => ⟨none, 0, false, 4⟩⟩)
        ((NzForwardRenderQueue.AddModel
          (some ⟨true, NzMatrix4f.Translate ⟨1, 0, 0⟩, ⟨[⟨.static, 0, ⟨some 1, 2, 3⟩⟩]⟩,
            fun _ => ⟨none, 0, false, 4⟩⟩)
          emptyQueue).1)).1).visibleModels =
      [(⟨none, 0, false, 4⟩,
        [(⟨some 1, 2, 3⟩, [NzMatrix4f.Translate ⟨1, 0, 0⟩, NzMatrix4f.Translate ⟨2, 0, 0⟩])])] ∧
    ((NzForwardRenderQueue.AddModel
        (some ⟨true, NzMatrix4f.Translate ⟨1, 0, 0⟩, ⟨[⟨.static, 0, ⟨some 1, 2, 3⟩⟩]⟩,
          fun _ => ⟨none, 0, true, 4⟩⟩) emptyQueue).1).visibleModels = [] := by
  constructor
  · exact C4_grouping_and_separation.1 ⟨.static, 0, ⟨some 1, 2, 3⟩⟩ ⟨none, 0, false, 4⟩
      (NzMatrix4f.Translate ⟨1, 0, 0⟩) (NzMatrix4f.Translate ⟨2, 0, 0⟩)
      (fun _ => ⟨none, 0, false, 4⟩) (fun _ => ⟨none, 0, false, 4⟩) rfl rfl rfl rfl
  · exact (C4_grouping_and_separation.2.1 emptyQueue ⟨.static, 0, ⟨some 1, 2, 3⟩⟩
      (NzMatrix4f.Translate ⟨1, 0, 0⟩) (fun _ => ⟨none, 0, true, 4⟩) rfl rfl).1

theorem addSubMeshStep_WF (m : NzModel) (acc : NzForwardRenderQueue × List String)
    (sm : NzSubMesh) (h : QueueWF acc.1) : QueueWF (addSubMeshStep m acc sm).1 := by
  rcases acc with ⟨q, log⟩
  have h' : QueueWF q := h
  rcases ha : sm.animationType with _ | _
  · simpa [addSubMeshStep, ha] using h
  · by_cases hb : (m.getMaterial sm.materialIndex).alphaBlendingEnabled = true
    · intro p hp
      simp only [addSubMeshStep, ha, hb, if_pos] at hp ⊢
      rcases List.mem_append.mp hp with hold | hnew
      · obtain ⟨h2, hlen⟩ := h' p hold
        refine ⟨h2, ?_⟩
        simp only [List.length_append, List.length_cons, List.length_nil]
        omega
      · rcases List.mem_singleton.mp hnew with rfl
        refine ⟨rfl, ?_⟩
        simp only [List.length_append, List.length_cons, List.length_nil]
        omega
    · intro p hp
      simp only [addSubMeshStep, ha, hb, if_neg] at hp ⊢
      exact h p hp

theorem foldl_addSubMeshStep_WF (m : NzModel) (subs : List NzSubMesh) :
    ∀ acc : NzForwardRenderQueue × List String, QueueWF acc.1 →
      QueueWF ((subs.foldl (addSubMeshStep m) acc)).1 := by
  induction subs with
  | nil => intro acc h; exact h
  | cons sm rest ih =>
    intro acc h
    exact ih (addSubMeshStep m acc sm) (addSubMeshStep_WF m acc sm h)

theorem comparator_key (q : NzForwardRenderQueue) (pl : NzPlanef) (h : QueueWF q) :
    ∀ a ∈ q.visibleTransparentsModels, ∀ b ∈ q.visibleTransparentsModels,
      TransparentModelComparator q pl a b =
        decide (transparentDepth q pl a < transparentDepth q pl b) := by
  intro a ha b hb
  obtain ⟨ha2, _⟩ := h a ha
  obtain ⟨hb2, _⟩ := h b hb
  simp [TransparentModelComparator, transparentDepth, transparentRecordMatrix, ha2, hb2]

/-- C1: under every submission-reachable transparent state (the submission
entry points preserve, and Clear establishes, the invariant that each
transparent record is static-tagged with an in-range index), Sort reorders
only the transparent index list, into ascending near-plane distance of each
record's own world-space translation read from the backing store its tag
names, and both backing stores — and all other containers — are unchanged,
so every stored index stays valid. -/
theorem C1_sort_ordering :
    (∀ (m : Option NzModel) (q : NzForwardRenderQueue), QueueWF q →
      QueueWF (NzForwardRenderQueue.AddModel m q).1) ∧
    (∀ (dbg : Bool) (l : Option NzLight) (q : NzForwardRenderQueue), QueueWF q →
      QueueWF (NzForwardRenderQueue.AddLight dbg l q).1) ∧
    (∀ (d : Option ℕ) (q : NzForwardRenderQueue), QueueWF q →
      QueueWF (NzForwardRenderQueue.AddDrawable d q).1) ∧
    (∀ q : NzForwardRenderQueue, QueueWF q.Clear) ∧
    (∀ (camera : NzCamera) (q : NzForwardRenderQueue), QueueWF q →
      (q.Sort camera).transparentStaticModels = q.transparentStaticModels ∧
      (q.Sort camera).transparentSkeletalModels = q.transparentSkeletalModels ∧
      (q.Sort camera).directionnalLights = q.directionnalLights ∧
      (q.Sort camera).visibleLights = q.visibleLights ∧
      (q.Sort camera).visibleModels = q.visibleModels ∧
      (q.Sort camera).otherDrawables = q.otherDrawables ∧
      ((q.Sort camera).visibleTransparentsModels).Pairwise
        (fun a b => transparentDepth q camera.nearPlane a ≤
          transparentDepth q camera.nearPlane b) ∧
      QueueWF (q.Sort camera)) := by
  refine ⟨?_, ?_, ?_, ?_, ?_⟩
  · intro m q h
    rcases m with _ | m
    · exact h
    · by_cases hd : m.isDrawable = false <;>
        · simp only [NzForwardRenderQueue.AddModel, hd, if_pos, if_neg]
          first
          | exact h
          | exact foldl_addSubMeshStep_WF m m.mesh.subMeshes (q, []) h
  · intro dbg l q h
    rcases l with _ | l
    · exact h
    · rcases ht : l.type with _ | _ | _ | n <;>
        · intro p hp
          simp only [NzForwardRenderQueue.AddLight, ht] at hp ⊢
          exact h p hp
  · intro d q h
    rcases d with _ | d
    · exact h
    · intro p hp
      simp only [NzForwardRenderQueue.AddDrawable] at hp
      exact h p hp
  · intro q p hp
    simp [NzForwardRenderQueue.Clear] at hp
  · intro camera q h
    refine ⟨rfl, rfl, rfl, rfl, rfl, rfl, ?_, ?_⟩
    · have hc := comparator_key q camera.nearPlane h
      have hp := stdSort_pairwise_key (TransparentModelComparator q camera.nearPlane)
        (transparentDepth q camera.nearPlane) q.visibleTransparentsModels hc
      simpa [NzForwardRenderQueue.Sort] using hp
    · intro p hp
      have hp' : p ∈ q.visibleTransparentsModels := by
        have : p ∈ stdSort (TransparentModelComparator q camera.nearPlane)
            q.visibleTransparentsModels := by
          simpa [NzForwardRenderQueue.Sort] using hp
        exact (mem_stdSort _).mp this
      exact h p hp'

/-- C3: sorting is a permutation of the transparent index list — the same
records, no loss, no duplication — and under every submission-reachable
state, re-sorting with the same camera changes nothing. -/
theorem C3_sort_idempotent_perm :
    (∀ (camera : NzCamera) (q : NzForwardRenderQueue),
      ((q.Sort camera).visibleTransparentsModels).Perm q.visibleTransparentsModels) ∧
    (∀ (camera : NzCamera) (q : NzForwardRenderQueue), QueueWF q →
      (q.Sort camera).Sort camera = q.Sort camera) := by
  constructor
  · intro camera q
    simpa [NzForwardRenderQueue.Sort] using
      stdSort_perm (TransparentModelComparator q camera.nearPlane) q.visibleTransparentsModels
  · intro camera q h
    have hc := comparator_key q camera.nearPlane h
    have hidem := stdSort_idem (TransparentModelComparator q camera.nearPlane)
      (transparentDepth q camera.nearPlane) q.visibleTransparentsModels hc
    rcases q with ⟨dl, od, vl, vm, vtm, tsk, tst⟩
    simp only [NzForwardRenderQueue.Sort, NzForwardRenderQueue.mk.injEq, and_true, true_and]
    exact hidem

/-- A concrete well-formed queue holding two static transparent records,
used to instantiate the sort theorems. -/
def witnessQueue : NzForwardRenderQueue :=
  { emptyQueue with
      transparentStaticModels :=
        [⟨⟨none, 0, false, 0⟩, ⟨none, 0, 0⟩, NzMatrix4f.Translate ⟨0, 0, 5⟩⟩,
         ⟨⟨none, 0, false, 0⟩, ⟨none, 0, 0⟩, NzMatrix4f.Translate ⟨0, 0, 2⟩⟩],
      visibleTransparentsModels := [(0, true), (1, true)] }

theorem witnessQueue_WF : QueueWF witnessQueue := by
  unfold QueueWF witnessQueue
  decide

/-- C1 witness: the theorem applied to a null submission, to the empty
queue, and to a concrete two-record queue with a concrete camera. -/
theorem C1_sort_ordering_witness :
    QueueWF (NzForwardRenderQueue.AddModel none emptyQueue).1 ∧
    QueueWF (witnessQueue.Sort ⟨⟨⟨0, 0, 1⟩, 0⟩⟩) ∧
    (witnessQueue.Sort ⟨⟨⟨0, 0, 1⟩, 0⟩⟩).transparentStaticModels =
      witnessQueue.transparentStaticModels := by
  have hwf : QueueWF emptyQueue := by unfold QueueWF emptyQueue; decide
  have h := C1_sort_ordering.2.2.2.2 ⟨⟨⟨0, 0, 1⟩, 0⟩⟩ witnessQueue witnessQueue_WF
  exact ⟨C1_sort_ordering.1 none emptyQueue hwf, h.2.2.2.2.2.2.2, h.1⟩

/-- C3 witness: the theorem applied to a concrete two-record queue and a
concrete camera. -/
theorem C3_sort_idempotent_perm_witness :
    ((witnessQueue.Sort ⟨⟨⟨0, 0, 1⟩, 0⟩⟩).visibleTransparentsModels).Perm
      witnessQueue.visibleTransparentsModels ∧
    (witnessQueue.Sort ⟨⟨⟨0, 0, 1⟩, 0⟩⟩).Sort ⟨⟨⟨0, 0, 1⟩, 0⟩⟩ =
      witnessQueue.Sort ⟨⟨⟨0, 0, 1⟩, 0⟩⟩ :=
  ⟨C3_sort_idempotent_perm.1 ⟨⟨⟨0, 0, 1⟩, 0⟩⟩ witnessQueue,
   C3_sort_idempotent_perm.2 ⟨⟨⟨0, 0, 1⟩, 0⟩⟩ witnessQueue witnessQueue_WF⟩
